import Mathlib

/-!
Verification of the `soap-router` crate (SOAP 1.2 request router).

Shallow embedding of `src/soap-router/src/router.rs` and
`src/soap-router/src/fault.rs`.  The `xmltree` DOM is embedded as a mutual
inductive (`Element` / `XMLNode`); Rust `HashMap`s for attributes and
namespace tables are embedded as association lists, and `HashMap` equality
(`a.attributes == e.attributes`) as the key-wise equivalence `attrEquiv`.
Mutation is embedded by explicit state passing; a Rust `panic!` / `unwrap()`
on `None` / `todo!()` is embedded as `Option.none` in the result.
-/

namespace SoapRouter

/-- The SOAP 1.2 envelope namespace URI used throughout `router.rs` / `fault.rs`. -/
def envNS : String := "http://www.w3.org/2003/05/soap-envelope"

/-- The reserved XML namespace URI. -/
def xmlNS : String := "http://www.w3.org/XML/1998/namespace"

mutual
/-- Embeds `xmltree::Element`.  Field `ns` embeds the Rust field `namespace`,
`pfx` embeds the Rust field `prefix` (renamed only because of Lean keywords);
`attributes` and `namespaces` embed the hash maps as association lists. -/
inductive Element : Type where
  | mk (name : String) (ns : Option String) (pfx : Option String)
       (attributes : List (String × String))
       (namespaces : Option (List (String × String)))
       (children : List XMLNode) : Element

/-- Embeds `xmltree::XMLNode` (the non-element constructors `Comment`, `CData`,
`ProcessingInstruction` behave identically in the merged code paths; `text` and
`comment` are kept as representatives). -/
inductive XMLNode : Type where
  | element (e : Element) : XMLNode
  | text (s : String) : XMLNode
  | comment (s : String) : XMLNode
end

def Element.name : Element → String
  | .mk n _ _ _ _ _ => n

def Element.ns : Element → Option String
  | .mk _ n _ _ _ _ => n

def Element.pfx : Element → Option String
  | .mk _ _ p _ _ _ => p

def Element.attributes : Element → List (String × String)
  | .mk _ _ _ a _ _ => a

def Element.namespaces : Element → Option (List (String × String))
  | .mk _ _ _ _ n _ => n

def Element.children : Element → List XMLNode
  | .mk _ _ _ _ _ c => c

/-- Replace the child list, keeping every other field (embeds in-place
mutation of `children`). -/
def Element.withChildren : Element → List XMLNode → Element
  | .mk n ns p a nss _, c => .mk n ns p a nss c

def Element.pushChild (e : Element) (c : XMLNode) : Element :=
  e.withChildren (e.children ++ [c])

@[simp] theorem Element.name_mk (n ns p a nss c) :
    (Element.mk n ns p a nss c).name = n := rfl
@[simp] theorem Element.ns_mk (n ns p a nss c) :
    (Element.mk n ns p a nss c).ns = ns := rfl
@[simp] theorem Element.pfx_mk (n ns p a nss c) :
    (Element.mk n ns p a nss c).pfx = p := rfl
@[simp] theorem Element.attributes_mk (n ns p a nss c) :
    (Element.mk n ns p a nss c).attributes = a := rfl
@[simp] theorem Element.namespaces_mk (n ns p a nss c) :
    (Element.mk n ns p a nss c).namespaces = nss := rfl
@[simp] theorem Element.children_mk (n ns p a nss c) :
    (Element.mk n ns p a nss c).children = c := rfl
@[simp] theorem Element.withChildren_mk (n ns p a nss c c') :
    (Element.mk n ns p a nss c).withChildren c' = .mk n ns p a nss c' := rfl

@[simp] theorem Element.name_withChildren (e : Element) (c) :
    (e.withChildren c).name = e.name := by cases e; rfl
@[simp] theorem Element.ns_withChildren (e : Element) (c) :
    (e.withChildren c).ns = e.ns := by cases e; rfl
@[simp] theorem Element.attributes_withChildren (e : Element) (c) :
    (e.withChildren c).attributes = e.attributes := by cases e; rfl
@[simp] theorem Element.children_withChildren (e : Element) (c) :
    (e.withChildren c).children = c := by cases e; rfl

/-- Embeds `XMLNode::as_element`. -/
def XMLNode.asElement : XMLNode → Option Element
  | .element e => some e
  | _ => none

/-- First element child satisfying the predicate: embeds
`xmltree::Element::get_child` / `get_mut_child` (the predicate is over the
element's `name`, and `namespace` when a pair predicate is used; non-element
nodes never match). -/
def getChild (p : Element → Bool) : List XMLNode → Option Element
  | [] => none
  | .element e :: rest => if p e then some e else getChild p rest
  | .text _ :: rest => getChild p rest
  | .comment _ :: rest => getChild p rest

/-- Replace the first element child satisfying the predicate (embeds writing
through the `&mut Element` returned by `get_mut_child`). -/
def replaceFirstChild (p : Element → Bool) (r : Element) :
    List XMLNode → List XMLNode
  | [] => []
  | .element e :: rest =>
      if p e then .element r :: rest else .element e :: replaceFirstChild p r rest
  | .text s :: rest => .text s :: replaceFirstChild p r rest
  | .comment s :: rest => .comment s :: replaceFirstChild p r rest

/-- The `xmltree` predicate for a `(&str, &str)` qualified-name lookup:
name and namespace must both match. -/
def matchesQName (n : String) (nsuri : String) (e : Element) : Bool :=
  e.name == n && e.ns == some nsuri

/-- Key-wise equality of attribute maps: embeds Rust `HashMap` equality
(`a.attributes == e.attributes`), which ignores insertion order. -/
def attrEquiv (a b : List (String × String)) : Bool :=
  a.all (fun kv => b.lookup kv.1 == some kv.2) &&
  b.all (fun kv => a.lookup kv.1 == some kv.2)

/-! ### `SoapMessage` (router.rs 28-69)

`SoapMessage` is a newtype around `xmltree::Element`; it is embedded as
`Element` directly.  A Rust accessor that `unwrap()`s a lookup is embedded as
an `Option`, `none` standing for the panic. -/

/-- Embeds `SoapMessage::new` (router.rs 29-40).  Note: the source names the
root `"Enveloppe"` and the `Body` child gets only a prefix, no `namespace`
field. -/
def SoapMessage.new : Element :=
  .mk "Enveloppe" (some envNS) none []
    (some [("xml", xmlNS), ("env", envNS)])
    [.element (.mk "Body" none (some "env") [] none [])]

/-- Embeds `SoapMessage::get_body` (router.rs 42-46); `none` embeds the
`unwrap()` panic. -/
def getBody (m : Element) : Option Element :=
  getChild (matchesQName "Body" envNS) m.children

/-- Embeds `SoapMessage::get_headers` (router.rs 48-51). -/
def getHeaders (m : Element) : Option Element :=
  getChild (matchesQName "Header" envNS) m.children

/-- Embeds the state mutation of `SoapMessage::get_mut_headers`
(router.rs 59-64): when no `Header` is found, an element named `"Headers"`
(source spelling) with prefix `env` and no namespace is inserted first. -/
def getMutHeadersState (m : Element) : Element :=
  if (getHeaders m).isSome then m
  else m.withChildren (.element (.mk "Headers" none (some "env") [] none []) :: m.children)

/-- Embeds the value returned by `SoapMessage::get_mut_headers`
(router.rs 65-67): the `("Header", ENV_NS)` lookup on the updated message,
`none` embedding the `unwrap()` panic. -/
def getMutHeaders (m : Element) : Option Element :=
  getHeaders (getMutHeadersState m)

/-! ### Request validation (router.rs 183-199) -/

/-- Embeds `SoapRouter::parse_request` applied to an already parsed XML
document (a malformed body panics at the `unwrap()` on
`xmltree::Element::parse` before this logic runs).  The source condition is
`name != "Envelope" && namespace != Some(ENV_NS)`. -/
def parseRequest (x : Element) : Except String Element :=
  if !(x.name == "Envelope") && !(x.ns == some envNS) then
    .error "Not a SOAP message"
  else if (getChild (matchesQName "Body" envNS) x.children).isNone then
    .error "Malformed SOAP Message"
  else
    .ok x

/-! ### Theorems for claims C2, C9, C3 -/

/-- C2: `SoapMessage::new()` is claimed to produce a root with local name
`"Envelope"` and a `Body` that the `body()` accessor finds.  In the code the
root is named `"Enveloppe"` and the `Body` child carries no `namespace`
field, so `get_body()`'s `("Body", ENV_NS)` lookup fails and its `unwrap()`
panics (embedded as `none`). -/
theorem c2_new_envelope_bug :
    SoapMessage.new.name = "Enveloppe" ∧ getBody SoapMessage.new = none := by
  constructor <;> rfl

/-- C9: on a message without a `Header`, `get_mut_headers` is claimed to
insert a fresh `env:Header` and return it.  In the code the inserted element
is named `"Headers"` and has no `namespace` field, so the subsequent
`("Header", ENV_NS)` lookup fails and the `unwrap()` panics (embedded as
`none`); moreover the inserted child is named `"Headers"`, not `"Header"`. -/
theorem c9_headers_bug :
    getMutHeaders SoapMessage.new = none ∧
    ∃ h rest, (getMutHeadersState SoapMessage.new).children
        = XMLNode.element h :: rest ∧ h.name = "Headers" ∧ h.ns = none := by
  refine ⟨rfl, .mk "Headers" none (some "env") [] none [], _, rfl, rfl, rfl⟩

/-- A request whose root is named `Envelope` but lives in a wrong namespace,
with an `env:Body` child. -/
def wrongNsEnvelope : Element :=
  .mk "Envelope" (some "http://wrong.example.org") none [] none
    [.element (.mk "Body" (some envNS) (some "env") [] none [])]

/-- A request whose root has the right namespace but the wrong local name. -/
def wrongNameEnvelope : Element :=
  .mk "Fake" (some envNS) none [] none
    [.element (.mk "Body" (some envNS) (some "env") [] none [])]

/-- C3: the claim says a request failing EITHER the root-name check or the
root-namespace check is rejected with HTTP 400.  The source combines the two
failures with `&&` (router.rs 187-188), so a root that fails only one of the
two checks is accepted: `parse_request` returns `Ok` on both inputs below. -/
theorem c3_validation_bug :
    parseRequest wrongNsEnvelope = .ok wrongNsEnvelope ∧
    parseRequest wrongNameEnvelope = .ok wrongNameEnvelope := by
  constructor <;> rfl

/-! ### Envelope merger (router.rs 255-278) -/

/-- The lookup predicate the merger uses for an element child `e`: the source
calls `get_mut_child(e.name)` (name only) when `e.namespace` is `None`, and
`get_mut_child((e.name, n))` when it is `Some(n)`. -/
def childPred (e : Element) : Element → Bool :=
  match e.ns with
  | none => fun a => a.name == e.name
  | some n => fun a => a.name == e.name && a.ns == some n

/-- One iteration of the `for child in element.children` loop of
`merge_soap_enveloppe` (router.rs 256-276). -/
def mergeStep (acc : Element) (child : XMLNode) : Element :=
  match child with
  | .element e =>
      match getChild (childPred e) acc.children with
      | none => acc.pushChild child
      | some a =>
          if attrEquiv a.attributes e.attributes then
            acc.withChildren
              (replaceFirstChild (childPred e)
                (a.withChildren (a.children ++ e.children)) acc.children)
          else acc.pushChild child
  | c => acc.pushChild c

/-- Embeds `merge_soap_enveloppe` (router.rs 255-278). -/
def mergeSoapEnveloppe (accumulator element : Element) : Element :=
  element.children.foldl mergeStep accumulator

/-! ### `SoapFault` and the fault builder (fault.rs) -/

/-- Embeds `isolang::Language` restricted to the variants the claims use. -/
inductive Language : Type where
  | eng
  | fra
  deriving DecidableEq

/-- Embeds `Language::to_639_3`. -/
def Language.to639_3 : Language → String
  | .eng => "eng"
  | .fra => "fra"

/-- Embeds `SoapFaultCode` (fault.rs 21-28). -/
inductive SoapFaultCode : Type where
  | VersionMismatch
  | MustUnderstand
  | DataEncodingUnknown
  | Sender
  | Receiver

/-- Embeds the `strum_macros::Display` derive on `SoapFaultCode`: the string
is the variant name. -/
def SoapFaultCode.show : SoapFaultCode → String
  | .VersionMismatch => "VersionMismatch"
  | .MustUnderstand => "MustUnderstand"
  | .DataEncodingUnknown => "DataEncodingUnknown"
  | .Sender => "Sender"
  | .Receiver => "Receiver"

/-- Embeds `SoapFault` (fault.rs 13-19); `url::Url` is embedded as the URI
string, the `reason` hash map as an association list. -/
structure SoapFault : Type where
  code : SoapFaultCode
  sub_codes : List (String × String)
  reason : List (Language × String)
  detail : Option Element

/-! `PrefixGenerator` (fault.rs 53-75).  The state `prev` is a byte vector;
bytes are embedded as `Nat` character codes. -/

/-- The body of `PrefixGenerator::next` acting on the REVERSED state (the
Rust loop pops from the end): pop trailing `z`s (122) turning each into an
`a` (97), increment the first non-`z`, or push an `a` when the state is
exhausted. -/
def stepRev : List Nat → List Nat
  | [] => [97]
  | d :: rest => if d = 122 then 97 :: stepRev rest else (d + 1) :: rest

/-- Embeds `PrefixGenerator::next`: the successor state (which is also the
returned string's byte content). -/
def pgNext (prev : List Nat) : List Nat :=
  (stepRev prev.reverse).reverse

/-- The string returned by `PrefixGenerator::next` (UTF-8 decoding of the
byte state). -/
def byteStr (l : List Nat) : String :=
  String.mk (l.map Char.ofNat)

/-- The byte state after `n` calls to `next()` starting from the default
(empty) generator. -/
def pgState (n : Nat) : List Nat :=
  pgNext^[n] []

/-- The `n`-th string emitted by a fresh `PrefixGenerator` (0-indexed): the
state after `n + 1` calls. -/
def pgOut (n : Nat) : String :=
  byteStr (pgState (n + 1))

/-- First-occurrence deduplication of a list of URIs.  This embeds the
`collect::<HashSet<Url>>()` of fault.rs 85-92; a `HashSet`'s iteration order
is unspecified, and it is modelled here as first-insertion order (none of the
proved facts depend on this choice). -/
def firstDedup (seen : List String) : List String → List String
  | [] => []
  | x :: rest =>
      if seen.contains x then firstDedup seen rest
      else x :: firstDedup (x :: seen) rest

/-- Embeds the `code_namespaces` map of fault.rs 85-92: each distinct subcode
URI is paired with the next generator output, in iteration order. -/
def allocPrefixes (uris : List String) : List (String × String) :=
  (uris.foldl
    (fun st u =>
      let s := pgNext st.1
      (s, st.2 ++ [(u, byteStr s)]))
    (([] : List Nat), ([] : List (String × String)))).2

/-- Embeds `From<SoapFault> for SoapMessage` (fault.rs 77-158).  Source
details kept verbatim: the root is named `"Enveloppe"`; the element holding
the `env:<code>` value is named `"Fault"` (fault.rs 106); the subcode chain
is built by a right-to-left fold so the first listed subcode is outermost. -/
def soapFaultToMessage (val : SoapFault) : Element :=
  let codeNamespaces := allocPrefixes (firstDedup [] (val.sub_codes.map Prod.fst))
  let namespaces :=
    [("xml", xmlNS), ("env", envNS)] ++ codeNamespaces.map (fun up => (up.2, up.1))
  let value : Element :=
    .mk "Value" none (some "env") [] none [.text ("env:" ++ val.code.show)]
  let code0 : Element := .mk "Fault" none (some "env") [] none [.element value]
  let code :=
    val.sub_codes.reverse.foldl
      (fun acc nsv =>
        let v : Element :=
          .mk "Value" none (some "env") [] none
            [.text (((codeNamespaces.lookup nsv.1).getD "") ++ ":" ++ nsv.2)]
        Element.mk "Subcode" none (some "env") [] none [.element v, .element acc])
      code0
  let reason :=
    val.reason.foldl
      (fun acc lv =>
        acc.pushChild
          (.element (.mk "Text" none (some "env") [("xml:lang", lv.1.to639_3)] none
            [.text lv.2])))
      (.mk "Reason" none (some "env") [] none [])
  let fault : Element :=
    .mk "Fault" none (some "env") [] none
      ([.element code, .element reason] ++
        (match val.detail with | some d => [.element d] | none => []))
  let body : Element := .mk "Body" none (some "env") [] none [.element fault]
  .mk "Enveloppe" (some envNS) none [] (some namespaces) [.element body]

/-! ### Router dispatch (router.rs 201-252) -/

/-- Embeds `SoapRequest` (router.rs 16-19). -/
structure SoapRequest : Type where
  headers : Element
  body : Element

/-- A registered handler, after type erasure: embeds
`BoxCloneService<SoapRequest, SoapMessage, SoapFault>` as a function from the
request to the handler outcome. -/
def Handler : Type := SoapRequest → Except SoapFault Element

/-- The routing table (`HashMap<(String, String), _>`), embedded as an
association list keyed by `(namespace, element name)`. -/
def Routes : Type := List ((String × String) × Handler)

/-- The synthesized empty header of router.rs 214-218. -/
def defaultHeader : Element := .mk "Header" (some envNS) none [] none []

/-- The HTTP-level outcome of `call_internal`. -/
inductive HttpOut : Type where
  | badRequest
  | ok (envelope : Element)

/-- The handler futures enqueued by the loop of router.rs 221-237: body
children are scanned in document order, non-elements are skipped, and each
element child whose key `(namespace ?? "", name)` is routed contributes its
handler's outcome.  `FuturesOrdered` yields results in push order regardless
of completion order, so the enqueued list order is the result order. -/
def matchedFutures (routes : Routes) (headers : Element)
    (bodyChildren : List XMLNode) : List (Except SoapFault Element) :=
  bodyChildren.filterMap (fun c =>
    match c with
    | .element e =>
        (routes.lookup (e.ns.getD "", e.name)).map
          (fun h => h ⟨headers, e⟩)
    | _ => none)

/-- Embeds `fut.map(|e| e.unwrap().0).collect()` (router.rs 242): every
result is unwrapped, so any `SoapFault` panics (embedded as `none`). -/
def collectOk : List (Except SoapFault Element) → Option (List Element)
  | [] => some []
  | .ok e :: rest => (collectOk rest).map (e :: ·)
  | .error _ :: _ => none

/-- Embeds `SoapRouter::call_internal` (router.rs 201-252) on an already
parsed request body.  `none` embeds a panic of the task: the `todo!()` of
router.rs 240 when no future was enqueued, and the `unwrap()` of
router.rs 242 when a handler returned a `SoapFault`. -/
def callInternal (routes : Routes) (req : Element) : Option HttpOut :=
  match parseRequest req with
  | .error _ => some .badRequest
  | .ok env =>
    match getChild (matchesQName "Body" envNS) env.children with
    | none => none
    | some soapBody =>
      let soapHeaders := (getHeaders env).getD defaultHeader
      let futs := matchedFutures routes soapHeaders soapBody.children
      if futs.isEmpty then
        none
      else
        match collectOk futs with
        | none => none
        | some [] => none
        | some (r :: rs) => some (.ok (rs.foldl mergeSoapEnveloppe r))

/-- Embeds the library's only provided `SoapHandler` implementation
(router.rs 140-149): a closure `F: FnOnce() -> Fut` is called with no
arguments; the incoming request and the state are ignored, and the closure's
`Ok` result is converted into a `SoapMessage`. -/
def soapHandlerCall {S R : Type} (intoMsg : R → Element)
    (f : Unit → Except SoapFault R) (_req : SoapRequest) (_state : S) :
    Except SoapFault Element :=
  (f ()).map intoMsg

mutual
/-- Whether an element, or any descendant element, has local name `s`. -/
def Element.containsName (s : String) : Element → Bool
  | .mk n _ _ _ _ cs => n == s || nodesContainName s cs

/-- Whether any element in the node list (recursively) has local name `s`. -/
def nodesContainName (s : String) : List XMLNode → Bool
  | [] => false
  | .element e :: rest => Element.containsName s e || nodesContainName s rest
  | .text _ :: rest => nodesContainName s rest
  | .comment _ :: rest => nodesContainName s rest
end

/-! ### Concrete router scenarios for claims C1 and C4 -/

def exampleNS : String := "http://www.example.org"

/-- A valid SOAP request envelope containing a single operation
`m:Op` in `http://www.example.org`. -/
def opRequest : Element :=
  .mk "Envelope" (some envNS) none [] none
    [.element (.mk "Body" (some envNS) (some "env") [] none
      [.element (.mk "Op" (some exampleNS) (some "m") [] none [])])]

/-- A route table whose only handler always resolves to a `Sender` fault. -/
def faultingRoutes : Routes :=
  [((exampleNS, "Op"),
    fun _ => .error ⟨.Sender, [], [(.eng, "boom")], none⟩)]

/-- C1: the claim says a handler `SoapFault` is rendered into an envelope and
merged like any other response, and that no error ever propagates to the HTTP
layer.  In the code, `call_internal` collects handler results with
`fut.map(|e| e.unwrap().0)` (router.rs 242), so an `Err(SoapFault)` panics
the task instead of being converted via `From<SoapFault> for SoapMessage`:
on a valid request routed to a faulting handler the model reaches the panic
(`none`), not a fault envelope. -/
theorem c1_fault_unwrap_panics :
    parseRequest opRequest = .ok opRequest ∧
    callInternal faultingRoutes opRequest = none := by
  exact ⟨rfl, rfl⟩

/-- C4 counterexample: the claim says that on a valid request matching no
registered route the router does not crash and returns a well-formed SOAP
envelope.  With an empty route table, `call_internal` reaches the `todo!()`
of router.rs 240, i.e. the task panics (embedded as `none`), so no response
envelope is produced. -/
theorem c4_counterexample :
    callInternal ([] : Routes) opRequest = none ∧
    parseRequest opRequest = .ok opRequest := by
  exact ⟨rfl, rfl⟩

/-- C4 (amended): for every valid SOAP request none of whose body operations
matches a registered route (no handler futures are enqueued), `call_internal`
reaches the unimplemented `todo!()` branch and the task panics; no response
of any kind is produced. -/
theorem c4_amended (routes : Routes) (req sb : Element)
    (hp : parseRequest req = .ok req)
    (hb : getChild (matchesQName "Body" envNS) req.children = some sb)
    (hm : matchedFutures routes ((getHeaders req).getD defaultHeader)
            sb.children = []) :
    callInternal routes req = none := by
  simp [callInternal, hp, hb, hm]

/-- A route table registering a handler under a name the request does not
contain. -/
def c4WitnessRoutes : Routes :=
  [((exampleNS, "OtherOp"), fun _ => .ok SoapMessage.new)]

/-- Witness for the amended C4 theorem at a concrete router and request. -/
theorem c4_amended_witness :
    callInternal c4WitnessRoutes opRequest = none := by
  exact c4_amended c4WitnessRoutes opRequest
    (.mk "Body" (some envNS) (some "env") [] none
      [.element (.mk "Op" (some exampleNS) (some "m") [] none [])])
    rfl rfl rfl

/-! ### Claim C6: fault rendering at the concrete fault of the spec -/

def u1 : String := "http://u1.example.org/ns"
def u2 : String := "http://u2.example.org/ns"

/-- The fault of end-to-end scenario 5:
`SoapFault { code: Sender, sub_codes: [(u1,"x"),(u2,"y")], reason: {Eng: "bad"}, detail: None }`. -/
def c6Fault : SoapFault :=
  ⟨.Sender, [(u1, "x"), (u2, "y")], [(.eng, "bad")], none⟩

/-- The envelope the embedded fault builder actually produces for `c6Fault`. -/
def c6Expected : Element :=
  .mk "Enveloppe" (some envNS) none []
    (some [("xml", xmlNS), ("env", envNS), ("a", u1), ("b", u2)])
    [.element (.mk "Body" none (some "env") [] none
      [.element (.mk "Fault" none (some "env") [] none
        [.element (.mk "Subcode" none (some "env") [] none
          [.element (.mk "Value" none (some "env") [] none [.text "a:x"]),
           .element (.mk "Subcode" none (some "env") [] none
             [.element (.mk "Value" none (some "env") [] none [.text "b:y"]),
              .element (.mk "Fault" none (some "env") [] none
                [.element (.mk "Value" none (some "env") [] none
                  [.text "env:Sender"])])])]),
         .element (.mk "Reason" none (some "env") [] none
           [.element (.mk "Text" none (some "env") [("xml:lang", "eng")] none
             [.text "bad"])])])])]

/-- C6: the claim says the fault body contains an `env:Code` element holding
the `env:Sender` value.  The source names that element `"Fault"`
(`Element::new("Fault")`, fault.rs 106), so the rendered envelope contains no
element named `Code` anywhere; the `env:Sender` value sits inside an inner
element named `Fault`.  (The subcode nesting — first listed subcode
outermost — and the `a`/`b` prefix generation do hold, as the computed
envelope shows; the binding of `u1` to `a` additionally depends on
unspecified `HashSet` iteration order, here modelled as insertion order.) -/
theorem c6_code_element_bug :
    soapFaultToMessage c6Fault = c6Expected ∧
    Element.containsName "Code" (soapFaultToMessage c6Fault) = false ∧
    (allocPrefixes (firstDedup [] (c6Fault.sub_codes.map Prod.fst))).map
        Prod.snd = ["a", "b"] := by
  refine ⟨rfl, rfl, rfl⟩

/-- C10: the only `SoapHandler` implementation the library provides (the
blanket implementation for closures, router.rs 140-149) never reads the
incoming request or the router state: its outcome is identical for any two
requests and any two states, so such a handler's response cannot depend on
any part of the incoming SOAP message. -/
theorem c10_handler_ignores_request {S R : Type} (intoMsg : R → Element)
    (f : Unit → Except SoapFault R) (q1 q2 : SoapRequest) (s1 s2 : S) :
    soapHandlerCall intoMsg f q1 s1 = soapHandlerCall intoMsg f q2 s2 := rfl

/-! ### Claim C7: the prefix generator emits pairwise distinct strings -/

/-- Value of a digit list (least-significant digit first) in bijective
base 26, digit `d` contributing `d - 96 ∈ [1, 26]`. -/
def valRev : List Nat → Nat
  | [] => 0
  | d :: rest => (d - 96) + 26 * valRev rest

theorem valRev_stepRev (l : List Nat) (h : ∀ d ∈ l, 97 ≤ d ∧ d ≤ 122) :
    valRev (stepRev l) = valRev l + 1 := by
  induction l with
  | nil => simp [stepRev, valRev]
  | cons d rest ih =>
    by_cases hd : d = 122
    · subst hd
      have hr := ih (fun x hx => h x (List.mem_cons_of_mem _ hx))
      simp only [stepRev, if_pos rfl, valRev, hr]
      omega
    · have hdm := h d (List.mem_cons_self d rest)
      simp only [stepRev, if_neg hd, valRev]
      omega

theorem valid_stepRev (l : List Nat) (h : ∀ d ∈ l, 97 ≤ d ∧ d ≤ 122) :
    ∀ d ∈ stepRev l, 97 ≤ d ∧ d ≤ 122 := by
  induction l with
  | nil =>
    intro d hd
    simp [stepRev] at hd
    omega
  | cons d rest ih =>
    intro x hx
    by_cases hd : d = 122
    · subst hd
      simp only [stepRev, if_pos rfl] at hx
      rcases List.mem_cons.mp hx with h1 | h1
      · omega
      · exact ih (fun y hy => h y (List.mem_cons_of_mem _ hy)) x h1
    · have hdm := h d (List.mem_cons_self d rest)
      simp only [stepRev, if_neg hd] at hx
      rcases List.mem_cons.mp hx with h1 | h1
      · omega
      · exact h x (List.mem_cons_of_mem _ h1)

theorem valRev_inj (a : List Nat) : ∀ b : List Nat,
    (∀ d ∈ a, 97 ≤ d ∧ d ≤ 122) → (∀ d ∈ b, 97 ≤ d ∧ d ≤ 122) →
    valRev a = valRev b → a = b := by
  induction a with
  | nil =>
    intro b _ hb hv
    cases b with
    | nil => rfl
    | cons e t =>
      exfalso
      have he := hb e (List.mem_cons_self e t)
      simp only [valRev] at hv
      omega
  | cons d r ih =>
    intro b ha hb hv
    cases b with
    | nil =>
      exfalso
      have hd := ha d (List.mem_cons_self d r)
      simp only [valRev] at hv
      omega
    | cons e t =>
      have hd := ha d (List.mem_cons_self d r)
      have he := hb e (List.mem_cons_self e t)
      simp only [valRev] at hv
      have hde : d = e ∧ valRev r = valRev t := by omega
      obtain ⟨rfl, hv'⟩ := hde
      rw [ih t (fun x hx => ha x (List.mem_cons_of_mem _ hx))
            (fun x hx => hb x (List.mem_cons_of_mem _ hx)) hv']

theorem pgState_spec (n : Nat) :
    (∀ d ∈ pgState n, 97 ≤ d ∧ d ≤ 122) ∧ valRev (pgState n).reverse = n := by
  induction n with
  | zero => exact ⟨by intro d hd; simp [pgState] at hd, rfl⟩
  | succ n ih =>
    have hstep : pgState (n + 1) = pgNext (pgState n) := by
      simp [pgState, Function.iterate_succ_apply']
    have hvrev : ∀ d ∈ (pgState n).reverse, 97 ≤ d ∧ d ≤ 122 :=
      fun x hx => ih.1 x (List.mem_reverse.mp hx)
    constructor
    · intro d hd
      rw [hstep] at hd
      exact valid_stepRev _ hvrev d
        (List.mem_reverse.mp (by simpa [pgNext] using hd))
    · rw [hstep, pgNext, List.reverse_reverse, valRev_stepRev _ hvrev, ih.2]

theorem charOfNat_toNat (n : Nat) (h : n < 55296) : (Char.ofNat n).toNat = n := by
  have hv : n.isValidChar := Or.inl h
  simp [Char.ofNat, hv, Char.ofNatAux, Char.toNat, UInt32.toNat]

theorem byteStr_inj (a b : List Nat)
    (ha : ∀ d ∈ a, 97 ≤ d ∧ d ≤ 122) (hb : ∀ d ∈ b, 97 ≤ d ∧ d ≤ 122)
    (h : byteStr a = byteStr b) : a = b := by
  have hmap : a.map Char.ofNat = b.map Char.ofNat := by
    have := congrArg String.data h
    simpa [byteStr] using this
  have key : ∀ l : List Nat, (∀ d ∈ l, 97 ≤ d ∧ d ≤ 122) →
      (l.map Char.ofNat).map Char.toNat = l := by
    intro l hl
    induction l with
    | nil => rfl
    | cons x xs ih =>
      have hx := hl x (List.mem_cons_self x xs)
      simp only [List.map_cons, List.cons.injEq]
      exact ⟨charOfNat_toNat x (by omega),
        ih (fun y hy => hl y (List.mem_cons_of_mem _ hy))⟩
  calc a = (a.map Char.ofNat).map Char.toNat := (key a ha).symm
    _ = (b.map Char.ofNat).map Char.toNat := by rw [hmap]
    _ = b := key b hb

/-- C7: successive invocations of `PrefixGenerator::next()` starting from the
default (empty) generator return pairwise distinct strings, and the first 27
emissions are `a, b, …, z, aa`. -/
theorem c7_prefix_generator :
    (∀ i j : Nat, i ≠ j → pgOut i ≠ pgOut j) ∧
    (List.range 27).map pgOut =
      ["a", "b", "c", "d", "e", "f", "g", "h", "i", "j", "k", "l", "m",
       "n", "o", "p", "q", "r", "s", "t", "u", "v", "w", "x", "y", "z",
       "aa"] := by
  constructor
  · intro i j hne heq
    have hi := pgState_spec (i + 1)
    have hj := pgState_spec (j + 1)
    have hs : pgState (i + 1) = pgState (j + 1) :=
      byteStr_inj _ _ hi.1 hj.1 heq
    have : i + 1 = j + 1 := by rw [← hi.2, ← hj.2, hs]
    omega
  · decide

/-- Witness for C7 at the concrete indices 0 and 1. -/
theorem c7_prefix_generator_witness : pgOut 0 ≠ pgOut 1 :=
  c7_prefix_generator.1 0 1 (by decide)

/-! ### Claims C5 and C8: the merger and dispatch ordering -/

@[simp] theorem Element.withChildren_withChildren (e : Element) (c c') :
    (e.withChildren c).withChildren c' = e.withChildren c' := by
  cases e
  rfl

/-- The direct children of the envelope's first `(Body, ENV_NS)` child
(empty when the body lookup would panic). -/
def bodyChildren (e : Element) : List XMLNode :=
  match getBody e with
  | some b => b.children
  | none => []

/-- A canonical SOAP response envelope: exactly a `Header` and a `Body`
child, both in `ENV_NS`. -/
def Canonical (a ah ab : Element) : Prop :=
  a.children = [.element ah, .element ab] ∧
  ah.name = "Header" ∧ ah.ns = some envNS ∧
  ab.name = "Body" ∧ ab.ns = some envNS

/-- Merging canonical envelopes with key-wise equal `Header` and `Body`
attribute maps: `Header` and `Body` each unify, and both accumulate the
other envelope's children by plain concatenation. -/
theorem merge_canonical_eq (a b ah ab bh bb : Element)
    (ha : Canonical a ah ab) (hb : Canonical b bh bb)
    (hhattr : attrEquiv ah.attributes bh.attributes = true)
    (hbattr : attrEquiv ab.attributes bb.attributes = true) :
    mergeSoapEnveloppe a b = a.withChildren
      [.element (ah.withChildren (ah.children ++ bh.children)),
       .element (ab.withChildren (ab.children ++ bb.children))] := by
  obtain ⟨hac, hahn, hahns, habn, habns⟩ := ha
  obtain ⟨hbc, hbhn, hbhns, hbbn, hbbns⟩ := hb
  rw [mergeSoapEnveloppe, hbc]
  simp only [List.foldl]
  rw [show mergeStep a (.element bh) = a.withChildren
        [.element (ah.withChildren (ah.children ++ bh.children)), .element ab] from ?_]
  · simp only [mergeStep, childPred, hbbns, hbbn, Element.children_withChildren,
      getChild, Element.name_withChildren, hahn, habn, habns,
      Element.ns_withChildren, hahns]
    simp only [show (("Header" : String) == "Body") = false by simp, Bool.false_and,
      if_false, beq_self_eq_true, Bool.and_self, if_true,
      Element.attributes_withChildren, hbattr, replaceFirstChild,
      Element.withChildren_withChildren, if_true]
    simp [hbattr, habn, habns, hahn, hahns]
  · simp only [mergeStep, childPred, hbhns, hbhn, hac, getChild, hahn, hahns,
      beq_self_eq_true, Bool.and_self, if_true, hhattr, replaceFirstChild]

/-- Merging canonical envelopes whose `Header` attribute maps differ: the
second `Header` is appended as a sibling, and the bodies still unify. -/
theorem merge_canonical_ne (a b ah ab bh bb : Element)
    (ha : Canonical a ah ab) (hb : Canonical b bh bb)
    (hhattr : attrEquiv ah.attributes bh.attributes = false)
    (hbattr : attrEquiv ab.attributes bb.attributes = true) :
    mergeSoapEnveloppe a b = a.withChildren
      [.element ah,
       .element (ab.withChildren (ab.children ++ bb.children)),
       .element bh] := by
  obtain ⟨hac, hahn, hahns, habn, habns⟩ := ha
  obtain ⟨hbc, hbhn, hbhns, hbbn, hbbns⟩ := hb
  rw [mergeSoapEnveloppe, hbc]
  simp only [List.foldl]
  rw [show mergeStep a (.element bh)
        = a.withChildren [.element ah, .element ab, .element bh] from ?_]
  · simp only [mergeStep, childPred, hbbns, hbbn, Element.children_withChildren,
      getChild, hahn, habn, habns, hahns]
    simp only [show (("Header" : String) == "Body") = false by simp, Bool.false_and,
      if_false, beq_self_eq_true, Bool.and_self, if_true, hbattr,
      replaceFirstChild, Element.withChildren_withChildren]
    simp [hbattr, habn, habns, hahn, hahns, hbhn, hbhns,
      show (("Header" : String) == "Body") = false by simp]
  · simp only [mergeStep, childPred, hbhns, hbhn, hac, getChild, hahn, hahns,
      beq_self_eq_true, Bool.and_self, if_true, hhattr, Bool.false_eq_true,
      if_false, Element.pushChild, hac]
    simp

theorem getBody_canonical (a ah ab : Element) (ha : Canonical a ah ab) :
    getBody a = some ab := by
  obtain ⟨hac, hahn, hahns, habn, habns⟩ := ha
  simp only [getBody, hac, getChild, matchesQName, hahn, habn, habns,
    show (("Header" : String) == "Body") = false by simp, Bool.false_and, if_false,
    beq_self_eq_true, Bool.and_self, if_true]
  simp

/-- C5: the merger's per-child behaviour and its top-level consequence.
The five conjuncts state, for the embedded `merge_soap_enveloppe`:
(1) a non-element child of `element` is appended to the accumulator's
children; (2) an element child `c` with no qualified-name match among the
accumulator's children is appended; (3) on a match with key-wise equal
attribute maps, `c`'s children are appended verbatim to the matched child's
children (no recursive merge); (4) on a match with differing attribute maps,
`c` is appended as a sibling; (5) merging two envelopes (`Header` + `Body`
shape) with identical `Envelope` and `Body` attribute sets yields a `Body`
whose children are the first envelope's `Body` children followed by the
second's, in order. -/
theorem c5_merge_semantics :
    (∀ (acc : Element) (s : String),
      mergeStep acc (.text s) = acc.pushChild (.text s)) ∧
    (∀ (acc e : Element), getChild (childPred e) acc.children = none →
      mergeStep acc (.element e) = acc.pushChild (.element e)) ∧
    (∀ (acc e a : Element), getChild (childPred e) acc.children = some a →
      attrEquiv a.attributes e.attributes = true →
      mergeStep acc (.element e) = acc.withChildren
        (replaceFirstChild (childPred e)
          (a.withChildren (a.children ++ e.children)) acc.children)) ∧
    (∀ (acc e a : Element), getChild (childPred e) acc.children = some a →
      attrEquiv a.attributes e.attributes = false →
      mergeStep acc (.element e) = acc.pushChild (.element e)) ∧
    (∀ a b ah ab bh bb : Element, Canonical a ah ab → Canonical b bh bb →
      attrEquiv a.attributes b.attributes = true →
      attrEquiv ab.attributes bb.attributes = true →
      bodyChildren (mergeSoapEnveloppe a b) = bodyChildren a ++ bodyChildren b) := by
  refine ⟨fun acc s => rfl, fun acc e h => by simp [mergeStep, h],
    fun acc e a h hattr => by simp [mergeStep, h, hattr],
    fun acc e a h hattr => by simp [mergeStep, h, hattr],
    fun a b ah ab bh bb ha hb _ hbattr => ?_⟩
  have hba := getBody_canonical a ah ab ha
  have hbb := getBody_canonical b bh bb hb
  by_cases hh : attrEquiv ah.attributes bh.attributes = true
  · rw [bodyChildren, bodyChildren, bodyChildren, hba, hbb,
      merge_canonical_eq a b ah ab bh bb ha hb hh hbattr]
    obtain ⟨hac, hahn, hahns, habn, habns⟩ := ha
    simp only [getBody, Element.children_withChildren, getChild,
      Element.name_withChildren, Element.ns_withChildren, hahn, habn, habns,
      show (("Header" : String) == "Body") = false by simp, Bool.false_and, if_false,
      matchesQName, beq_self_eq_true, Bool.and_self, if_true]
    simp
  · rw [bodyChildren, bodyChildren, bodyChildren, hba, hbb,
      merge_canonical_ne a b ah ab bh bb ha hb (by simpa using hh) hbattr]
    obtain ⟨hac, hahn, hahns, habn, habns⟩ := ha
    simp only [getBody, Element.children_withChildren, getChild,
      Element.name_withChildren, Element.ns_withChildren, hahn, habn, habns,
      show (("Header" : String) == "Body") = false by simp, Bool.false_and, if_false,
      matchesQName, beq_self_eq_true, Bool.and_self, if_true]
    simp

/-- Canonical envelope with fixed `Header` / `Body` attribute maps. -/
def CanonEnv (Ah Ab : List (String × String)) (e : Element) : Prop :=
  ∃ hd bd, Canonical e hd bd ∧ hd.attributes = Ah ∧ bd.attributes = Ab

theorem merge_canonEnv (Ah Ab : List (String × String))
    (hAh : attrEquiv Ah Ah = true) (hAb : attrEquiv Ab Ab = true)
    (x y : Element) (hx : CanonEnv Ah Ab x) (hy : CanonEnv Ah Ab y) :
    CanonEnv Ah Ab (mergeSoapEnveloppe x y) ∧
    bodyChildren (mergeSoapEnveloppe x y) = bodyChildren x ++ bodyChildren y := by
  obtain ⟨hd, bd, hc, hha, hba⟩ := hx
  obtain ⟨hd2, bd2, hc2, hha2, hba2⟩ := hy
  have heq := merge_canonical_eq x y hd bd hd2 bd2 hc hc2
    (by rw [hha, hha2]; exact hAh) (by rw [hba, hba2]; exact hAb)
  have hcm : Canonical (mergeSoapEnveloppe x y)
      (hd.withChildren (hd.children ++ hd2.children))
      (bd.withChildren (bd.children ++ bd2.children)) := by
    obtain ⟨hxc, hhn, hhns, hbn, hbns⟩ := hc
    exact ⟨by rw [heq]; simp, by simp [hhn], by simp [hhns],
      by simp [hbn], by simp [hbns]⟩
  refine ⟨⟨_, _, hcm, by simp [hha], by simp [hba]⟩, ?_⟩
  rw [bodyChildren, getBody_canonical _ _ _ hcm,
    bodyChildren, getBody_canonical _ _ _ hc,
    bodyChildren, getBody_canonical _ _ _ hc2]
  simp

theorem foldl_merge_canonEnv (Ah Ab : List (String × String))
    (hAh : attrEquiv Ah Ah = true) (hAb : attrEquiv Ab Ab = true)
    (rs : List Element) : ∀ r : Element, CanonEnv Ah Ab r →
    (∀ x ∈ rs, CanonEnv Ah Ab x) →
    CanonEnv Ah Ab (rs.foldl mergeSoapEnveloppe r) ∧
    bodyChildren (rs.foldl mergeSoapEnveloppe r)
      = bodyChildren r ++ (rs.map bodyChildren).flatten := by
  induction rs with
  | nil => intro r hr _; exact ⟨hr, by simp⟩
  | cons x xs ih =>
    intro r hr hrs
    have hm := merge_canonEnv Ah Ab hAh hAb r x hr (hrs x (List.mem_cons_self x xs))
    have hrest := ih (mergeSoapEnveloppe r x) hm.1
      (fun y hy => hrs y (List.mem_cons_of_mem _ hy))
    refine ⟨hrest.1, ?_⟩
    simp only [List.foldl_cons] at hrest ⊢
    rw [hrest.2, hm.2]
    simp

/-- C8: for every valid SOAP request, the handler results are collected in
the document order of the matched body operations (the ordered-completion
queue yields results in enqueue order, independent of completion order), and
when every handler succeeds with a canonical envelope sharing `Header` and
`Body` attribute maps, the merged response `Body` lists the responses'
operation elements in exactly that order (concatenation of the responses'
`Body` children). -/
theorem c8_dispatch_order (routes : Routes) (req sb : Element)
    (Ah Ab : List (String × String)) (rs : List Element)
    (hp : parseRequest req = .ok req)
    (hb : getChild (matchesQName "Body" envNS) req.children = some sb)
    (hok : collectOk (matchedFutures routes
        ((getHeaders req).getD defaultHeader) sb.children) = some rs)
    (hne : rs ≠ [])
    (hAh : attrEquiv Ah Ah = true) (hAb : attrEquiv Ab Ab = true)
    (hgood : ∀ r ∈ rs, CanonEnv Ah Ab r) :
    ∃ merged, callInternal routes req = some (.ok merged) ∧
      bodyChildren merged = (rs.map bodyChildren).flatten := by
  cases hfl : matchedFutures routes ((getHeaders req).getD defaultHeader)
      sb.children with
  | nil =>
    rw [hfl] at hok
    simp only [collectOk, Option.some.injEq] at hok
    exact absurd hok.symm hne
  | cons f fs =>
    rw [hfl] at hok
    cases rs with
    | nil => exact absurd rfl hne
    | cons r rs' =>
      refine ⟨rs'.foldl mergeSoapEnveloppe r, ?_, ?_⟩
      · simp only [callInternal, hp, hb, hfl, hok]
        simp
      · have hfold := foldl_merge_canonEnv Ah Ab hAh hAb rs' r
          (hgood r (List.mem_cons_self r rs'))
          (fun y hy => hgood y (List.mem_cons_of_mem _ hy))
        rw [hfold.2]
        simp

/-! ### Concrete witnesses -/

def wHeader : Element := .mk "Header" (some envNS) (some "env") [] none []

def wBodyA : Element :=
  .mk "Body" (some envNS) (some "env") [] none
    [.element (.mk "OpA" (some exampleNS) (some "m") [] none [])]

def wBodyB : Element :=
  .mk "Body" (some envNS) (some "env") [] none
    [.element (.mk "OpB" (some exampleNS) (some "m") [] none [])]

def wEnvA : Element :=
  .mk "Envelope" (some envNS) none [] none [.element wHeader, .element wBodyA]

def wEnvB : Element :=
  .mk "Envelope" (some envNS) none [] none [.element wHeader, .element wBodyB]

/-- Witness for C5 at two concrete single-operation envelopes. -/
theorem c5_merge_semantics_witness :
    bodyChildren (mergeSoapEnveloppe wEnvA wEnvB)
      = bodyChildren wEnvA ++ bodyChildren wEnvB :=
  c5_merge_semantics.2.2.2.2 wEnvA wEnvB wHeader wBodyA wHeader wBodyB
    ⟨rfl, rfl, rfl, rfl, rfl⟩ ⟨rfl, rfl, rfl, rfl, rfl⟩ rfl rfl

/-- The canonical response envelope returned by the C8 witness handler. -/
def wResp : Element :=
  .mk "Envelope" (some envNS) none [] none
    [.element wHeader,
     .element (.mk "Body" (some envNS) (some "env") [] none
       [.element (.mk "OpResponse" (some exampleNS) (some "m") [] none
         [.text "3.60"])])]

def wRespBody : Element :=
  .mk "Body" (some envNS) (some "env") [] none
    [.element (.mk "OpResponse" (some exampleNS) (some "m") [] none
      [.text "3.60"])]

def c8Routes : Routes := [((exampleNS, "Op"), fun _ => .ok wResp)]

/-- A request carrying the operation `m:Op` twice. -/
def c8Request : Element :=
  .mk "Envelope" (some envNS) none [] none
    [.element wHeader,
     .element (.mk "Body" (some envNS) (some "env") [] none
       [.element (.mk "Op" (some exampleNS) (some "m") [] none [.text "T"]),
        .element (.mk "Op" (some exampleNS) (some "m") [] none [.text "Y"])])]

/-- Witness for C8: a two-operation request dispatched to one handler yields
a merged body listing the handler's response body children twice, in order. -/
theorem c8_dispatch_order_witness :
    ∃ merged, callInternal c8Routes c8Request = some (.ok merged) ∧
      bodyChildren merged = ([wResp, wResp].map bodyChildren).flatten := by
  refine c8_dispatch_order c8Routes c8Request
    (.mk "Body" (some envNS) (some "env") [] none
      [.element (.mk "Op" (some exampleNS) (some "m") [] none [.text "T"]),
       .element (.mk "Op" (some exampleNS) (some "m") [] none [.text "Y"])])
    [] [] [wResp, wResp] rfl rfl rfl (by simp) rfl rfl ?_
  intro r hr
  have hre : r = wResp := by
    rcases List.mem_cons.mp hr with h | h
    · exact h
    · simpa using h
  subst hre
  exact ⟨wHeader, wRespBody, ⟨rfl, rfl, rfl, rfl, rfl⟩, rfl, rfl⟩

/-- Witness for C10 at a concrete closure, two distinct requests and two
distinct states. -/
theorem c10_handler_ignores_request_witness :
    soapHandlerCall id (fun _ => .ok SoapMessage.new)
        ⟨defaultHeader, defaultHeader⟩ (0 : Nat)
      = soapHandlerCall id (fun _ => .ok SoapMessage.new)
        ⟨wHeader, wBodyA⟩ (1 : Nat) :=
  c10_handler_ignores_request id (fun _ => .ok SoapMessage.new)
    ⟨defaultHeader, defaultHeader⟩ ⟨wHeader, wBodyA⟩ 0 1

end SoapRouter
